import Mathlib

/-!
Shallow embedding of `scripts/convert_m4a_to_mp3.py` (bark_detector repository).

The script batch-converts `.m4a` files to `.mp3` with ffmpeg, classifies each
per-file outcome as `converted` / `skipped` / `failed`, and persists an
append-only JSON run history plus a CSV snapshot of the latest run.

Modelling conventions:
* Filesystem paths handed to `pathlib` are modelled as `List String`
  (the path's components, as in `PurePath._parts`); `sorted(...)` over
  `Path` objects compares these component lists lexicographically
  (CPython `PurePath.__lt__` compares `_cparts` tuples, and on POSIX
  `casefold_parts` is the identity).
* Effects are passed in explicitly: the result of `subprocess.run(cmd)` is a
  function of the command line, `Path.exists()` checks are boolean oracles,
  and `os.environ.get` / `shutil.which` results are `Option String` inputs.
* An uncaught Python exception is an `Except.error`; functions that cannot
  raise are total.
-/

namespace BarkDetector

/-- The `@dataclass ConversionResult` of the script: one record per discovered
source file, with `error` defaulting to the empty string. -/
structure ConversionResult where
  source : String
  target : String
  status : String
  error : String := ""
deriving DecidableEq, Repr

/-- Outcome of `subprocess.run(cmd, capture_output=True, text=True, check=False)`:
either the call raised before the child ran (caught by the script's
`except Exception`), or the child completed with an exit code and captured
stdout/stderr (with `text=True` these are strings, never `None`). -/
inductive ProcOutcome where
  | raised (exc : String)
  | completed (returncode : Int) (stdout : String) (stderr : String)
deriving DecidableEq, Repr

/-- The fixed ffmpeg command line built in `convert_file`. -/
def ffmpegCmd (ffmpeg_bin src dst : String) : List String :=
  [ffmpeg_bin, "-y", "-i", src, "-vn", "-codec:a", "libmp3lame", "-q:a", "2", dst]

/-- The character class stripped by Python `str.strip()` (ASCII whitespace;
`str.strip` also strips some further Unicode space characters, which never
occur in the texts this model handles). -/
def pyWhitespace (c : Char) : Bool :=
  c == ' ' || c == '\t' || c == '\n' || c == '\r' || c == '\x0b' || c == '\x0c'

/-- Python `s.strip()` at character level: drop leading and trailing
whitespace. -/
def pyStrip (cs : List Char) : List Char :=
  ((cs.dropWhile pyWhitespace).reverse.dropWhile pyWhitespace).reverse

/-- `convert_file(src, dst, ffmpeg_bin)`.  `dstExists` is the value of
`dst.exists()` at call time; `run` maps a command line to the outcome of
`subprocess.run` on it.  The Python `(completed.stderr or "").strip() or
f"ffmpeg exited with code {rc}"` chain: with `text=True` the captured stderr
is a string, `or ""` leaves it unchanged (an empty string is falsy and is
replaced by the equal `""`), and the second `or` substitutes the synthesized
message exactly when the stripped text is empty. -/
def convert_file (src dst : String) (dstExists : Bool) (ffmpeg_bin : String)
    (run : List String → ProcOutcome) : ConversionResult :=
  if dstExists then
    { source := src, target := dst, status := "skipped", error := "target_exists" }
  else
    match run (ffmpegCmd ffmpeg_bin src dst) with
    | .raised exc => { source := src, target := dst, status := "failed", error := exc }
    | .completed rc _ stderr =>
        if rc == 0 then
          { source := src, target := dst, status := "converted", error := "" }
        else
          { source := src, target := dst, status := "failed",
            error := if (pyStrip stderr.data).isEmpty then
                       "ffmpeg exited with code " ++ toString rc
                     else ⟨pyStrip stderr.data⟩ }

/-- Python truthiness of an optional string (`None` and `""` are falsy). -/
def pyTruthyStr : Option String → Bool
  | none => false
  | some s => !(s == "")

/-- The fixed fallback install locations checked by `find_ffmpeg`. -/
def ffmpegFallbacks : List String := ["/opt/homebrew/bin/ffmpeg", "/usr/local/bin/ffmpeg"]

/-- `find_ffmpeg()`.  `env` is `os.environ.get("FFMPEG_BINARY")`, `which` is
`shutil.which("ffmpeg")`, and `ex` is the `Path(...).exists()` oracle.
`if env_ffmpeg and Path(env_ffmpeg).exists()` short-circuits on falsy
(unset or empty) override values, and the final loop returns the first
existing fallback candidate, else `None`. -/
def find_ffmpeg (env which : Option String) (ex : String → Bool) : Option String :=
  if pyTruthyStr env && ex (env.getD "") then env
  else if pyTruthyStr which then which
  else ffmpegFallbacks.find? ex

/-- `ensure_ffmpeg()`: `none` when a tool was resolved, otherwise the
user-facing error message. -/
def ensure_ffmpeg (env which : Option String) (ex : String → Bool) : Option String :=
  match find_ffmpeg env which ex with
  | some _ => none
  | none => some ("ffmpeg not found. Install with Homebrew (`brew install ffmpeg`) or set " ++
      "FFMPEG_BINARY to the full ffmpeg path.")

/-- A filesystem path as its components (CPython `PurePath._parts`), relative
to the input directory.  On POSIX, `Path` ordering is lexicographic on this
component list with code-point string comparison per component. -/
abbrev FsPath := List String

/-- `PurePath.name`: the final component (paths in this model are non-empty
component lists of regular files, so no drive/root special cases arise). -/
def pathName (p : FsPath) : String := p.getLastD ""

/-- `str(path)` for a relative POSIX path. -/
def pathToString (p : FsPath) : String := String.intercalate "/" p

/-- `fnmatch` semantics of the `rglob("*.m4a")` pattern on a file name: the
translated regex `.*\.m4a` full-matches exactly the names ending in `.m4a`
(case-sensitively; pathlib's wildcard selector does not special-case
dotfiles, so a file named exactly `.m4a` also matches). -/
def endsWithM4a (cs : List Char) : Bool := cs.reverse.take 4 == ['a', '4', 'm', '.']

/-- CPython `PurePath.with_suffix(".mp3")` on a file name, at character level.
`suffix` is `name[i:]` for `i = name.rfind('.')` when `0 < i < len(name)-1`,
else `''`; `with_suffix` drops the old suffix when there is one and otherwise
appends.  Writing `j` for the index of the last dot counted from the end
(`j = len-1-i`), the guard `0 < i < len(name)-1` becomes `0 < j < len-1`.
(The `ValueError` for an empty name cannot arise here: the script only applies
this to names matching `*.m4a`.) -/
def pyWithSuffixMp3Chars (cs : List Char) : List Char :=
  match cs.reverse.findIdx? (· == '.') with
  | some j =>
      if 0 < j ∧ j < cs.length - 1 then
        cs.take (cs.length - (j + 1)) ++ ".mp3".data
      else
        cs ++ ".mp3".data
  | none => cs ++ ".mp3".data

/-- `with_suffix(".mp3")` on a name string. -/
def pyWithSuffixMp3 (name : String) : String := ⟨pyWithSuffixMp3Chars name.data⟩

/-- `src.with_suffix(".mp3")` on a path: replace the final component's name. -/
def withSuffixMp3 (p : FsPath) : FsPath := p.dropLast ++ [pyWithSuffixMp3 (pathName p)]

/-- A path's components as lists of character code points.  Python compares
`Path` objects by their `parts` tuples, with strings compared lexicographically
by code point: that is exactly the lexicographic order on `pathKey`. -/
def pathKey (p : FsPath) : List (List Nat) := p.map fun s => s.data.map Char.toNat

/-- The order `sorted(...)` uses on `Path` objects, pulled back through
`pathKey`. -/
def pathLe (a b : FsPath) : Prop := pathKey a ≤ pathKey b

instance : DecidableRel pathLe := fun a b =>
  inferInstanceAs (Decidable (pathKey a ≤ pathKey b))

instance : IsTrans FsPath pathLe := ⟨fun _ _ _ h₁ h₂ => le_trans h₁ h₂⟩

instance : IsTotal FsPath pathLe := ⟨fun a b => le_total (pathKey a) (pathKey b)⟩

/-- `sorted(input_dir.rglob("*.m4a"))` over a model filesystem given as the
list of all regular files under the input directory: keep the files whose
name matches `*.m4a`, sorted lexicographically by path components. -/
def discoverSources (files : List FsPath) : List FsPath :=
  List.insertionSort pathLe (files.filter fun p => endsWithM4a (pathName p).data)

/-- The per-file loop of `main`: discovery, target derivation and
`convert_file` on each source in order.  `dstE` is the `dst.exists()` oracle
(keyed by the target's string form) and `proc` the `subprocess.run` oracle. -/
def runResults (files : List FsPath) (dstE : String → Bool)
    (proc : List String → ProcOutcome) (ffmpeg_bin : String) : List ConversionResult :=
  (discoverSources files).map fun src =>
    convert_file (pathToString src) (pathToString (withSuffixMp3 src))
      (dstE (pathToString (withSuffixMp3 src))) ffmpeg_bin proc

/-- `sum(1 for r in results if r.status == s)`. -/
def countStatus (rs : List ConversionResult) (s : String) : Nat :=
  rs.countP fun r => r.status == s

/-- The `totals` entry of the run payload. -/
structure RunTotals where
  found_m4a : Nat
  converted : Nat
  skipped : Nat
  failed : Nat
deriving DecidableEq, Repr

/-- The `run_payload` dict built by `main` (the new RunRecord). -/
structure RunPayload where
  timestamp_utc : String
  input_dir : String
  totals : RunTotals
  results : List ConversionResult
deriving DecidableEq, Repr

/-- The environment `main` runs in: precondition checks on the input
directory, the tool-resolution inputs, the model filesystem, and the
per-conversion effect oracles. -/
structure MainEnv where
  inputDirExists : Bool
  inputDirIsDir : Bool
  ffmpegEnv : Option String
  whichFfmpeg : Option String
  toolPathExists : String → Bool
  files : List FsPath
  dstFileExists : String → Bool
  runProc : List String → ProcOutcome
  timestamp : String
  inputDirStr : String

/-- `main()`.  Returns the process exit code and, when the run completes, the
artifacts it persists: the run payload appended to the JSON history and the
result rows written to the CSV snapshot.  `none` means the run was skipped
before any conversion: no payload is built and neither report is written
(the two early `return 1` branches for a bad input directory, and the
`ensure_ffmpeg` / repeated `find_ffmpeg` failure branches, which coincide in
this pure model since both evaluate the same `find_ffmpeg`). -/
def main (e : MainEnv) : Int × Option (RunPayload × List ConversionResult) :=
  if !(e.inputDirExists && e.inputDirIsDir) then (1, none)
  else
    match find_ffmpeg e.ffmpegEnv e.whichFfmpeg e.toolPathExists with
    | none => (1, none)
    | some ffmpeg_bin =>
        let results := runResults e.files e.dstFileExists e.runProc ffmpeg_bin
        let converted := countStatus results "converted"
        let skipped := countStatus results "skipped"
        let failed := countStatus results "failed"
        let payload : RunPayload :=
          { timestamp_utc := e.timestamp
            input_dir := e.inputDirStr
            totals :=
              { found_m4a := results.length
                converted := converted
                skipped := skipped
                failed := failed }
            results := results }
        ((if failed == 0 then (0 : Int) else 2), some (payload, results))

/-- A JSON value, as produced by `json.loads` (objects keep insertion order
and, coming from a parse, have pairwise distinct keys). -/
inductive Json where
  | null
  | bool (b : Bool)
  | num (n : Int)
  | str (s : String)
  | arr (elems : List Json)
  | obj (entries : List (String × Json))

/-- `existing.get(k)` / key lookup on a parsed JSON object. -/
def objGet (entries : List (String × Json)) (k : String) : Option Json :=
  match entries.find? (fun kv => kv.1 == k) with
  | some kv => some kv.2
  | none => none

/-- Replacing the value stored under key `k` (parsed objects have distinct
keys, so mapping over all entries replaces exactly the one binding and keeps
every other entry, and the overall order, unchanged).  Together with `objGet`
this models `existing.setdefault("runs", []).append(run_payload)` mutating the
list held under `"runs"` in place. -/
def objSet (entries : List (String × Json)) (k : String) (v : Json) :
    List (String × Json) :=
  entries.map fun kv => if kv.1 == k then (k, v) else kv

/-- What `write_json_report` can observe of the history file on disk:
missing; present but `read_text` raises (e.g. a permission or decoding
error); present and readable but `json.loads` raises `JSONDecodeError`; or
present and parsed to a JSON value. -/
inductive HistoryFile where
  | absent
  | unreadable
  | undecodable
  | parsed (v : Json)

/-- `write_json_report(report_path, run_payload)`.  The returned value is the
JSON written back to the file; `Except.error` is an uncaught Python
exception (nothing is written in that case).  Only `json.JSONDecodeError`
is caught: a failing `read_text` propagates, and a parsed value that is not
an object (`AttributeError: setdefault`), or an object whose `"runs"` value
is not a list (`AttributeError: append`), raises after a successful parse. -/
def write_json_report (file : HistoryFile) (run_payload : Json) :
    Except String Json :=
  let existing : Except String Json :=
    match file with
    | .absent => .ok (Json.obj [("runs", Json.arr [])])
    | .undecodable => .ok (Json.obj [("runs", Json.arr [])])
    | .unreadable => .error "read_text raised"
    | .parsed v => .ok v
  match existing with
  | .error e => .error e
  | .ok v =>
      match v with
      | .obj entries =>
          match objGet entries "runs" with
          | some (.arr runs) =>
              .ok (.obj (objSet entries "runs" (.arr (runs ++ [run_payload]))))
          | some _ => .error "AttributeError: append"
          | none => .ok (.obj (entries ++ [("runs", Json.arr [run_payload])]))
      | _ => .error "AttributeError: setdefault"

/-- The reinitialized empty history `{"runs": []}`. -/
def emptyHistory : Json := Json.obj [("runs", Json.arr [])]

/-- A sequence of runs against the same history file, starting from the
written-back state `start`: each run parses what the previous one wrote and
appends its payload. -/
def writeRunsFrom (start : Json) (ps : List Json) : Except String Json :=
  ps.foldl (fun acc p => acc.bind fun v => write_json_report (.parsed v) p) (.ok start)

/-- The spec's wording of target derivation ("the source path with its
extension replaced by the target format's extension"), applied to a name
matched by `*.m4a`: drop the four characters `.m4a`, append `.mp3`.  This
definition follows the spec's words, for comparison with the code's
`with_suffix`. -/
def specTargetName (name : String) : String :=
  ⟨name.data.take (name.data.length - 4) ++ ".mp3".data⟩

/-- The spec's wording of target derivation, lifted to a path. -/
def specTargetPath (p : FsPath) : FsPath := p.dropLast ++ [specTargetName (pathName p)]

/-- A concrete environment: the input directory does not exist. -/
def envMissingDir : MainEnv :=
  { inputDirExists := false, inputDirIsDir := false, ffmpegEnv := none,
    whichFfmpeg := none, toolPathExists := fun _ => false, files := [["a.m4a"]],
    dstFileExists := fun _ => false, runProc := fun _ => ProcOutcome.raised "x",
    timestamp := "t", inputDirStr := "missing" }

/-- A concrete environment: the input directory is fine but no tool resolves
(an override is set but does not exist, nothing on the search path, no
fallback present). -/
def envNoTool : MainEnv :=
  { inputDirExists := true, inputDirIsDir := true, ffmpegEnv := some "/gone",
    whichFfmpeg := none, toolPathExists := fun _ => false, files := [["a.m4a"]],
    dstFileExists := fun _ => false, runProc := fun _ => ProcOutcome.raised "x",
    timestamp := "t", inputDirStr := "data/train" }

/-- A concrete environment: one source file, tool on the search path, the
conversion succeeds. -/
def envCleanRun : MainEnv :=
  { inputDirExists := true, inputDirIsDir := true, ffmpegEnv := none,
    whichFfmpeg := some "/usr/bin/ffmpeg", toolPathExists := fun _ => false,
    files := [["a.m4a"]], dstFileExists := fun _ => false,
    runProc := fun _ => ProcOutcome.completed 0 "" "", timestamp := "t",
    inputDirStr := "data/train" }

/-- A concrete environment: one source file, the conversion fails with
captured stderr. -/
def envOneFailure : MainEnv :=
  { inputDirExists := true, inputDirIsDir := true, ffmpegEnv := none,
    whichFfmpeg := some "/usr/bin/ffmpeg", toolPathExists := fun _ => false,
    files := [["a.m4a"]], dstFileExists := fun _ => false,
    runProc := fun _ => ProcOutcome.completed 1 "" "boom", timestamp := "t",
    inputDirStr := "data/train" }

theorem convert_file_target (src dst ffmpeg_bin : String) (d : Bool)
    (run : List String → ProcOutcome) :
    (convert_file src dst d ffmpeg_bin run).target = dst := by
  unfold convert_file
  split
  · rfl
  · split
    · rfl
    · split <;> rfl

theorem convert_file_source (src dst ffmpeg_bin : String) (d : Bool)
    (run : List String → ProcOutcome) :
    (convert_file src dst d ffmpeg_bin run).source = src := by
  unfold convert_file
  split
  · rfl
  · split
    · rfl
    · split <;> rfl

theorem convert_file_status_cases (src dst ffmpeg_bin : String) (d : Bool)
    (run : List String → ProcOutcome) :
    (convert_file src dst d ffmpeg_bin run).status = "converted" ∨
    (convert_file src dst d ffmpeg_bin run).status = "skipped" ∨
    (convert_file src dst d ffmpeg_bin run).status = "failed" := by
  unfold convert_file
  split
  · right; left; rfl
  · split
    · right; right; rfl
    · split
      · left; rfl
      · right; right; rfl

theorem runResults_status_cases (files : List FsPath) (dstE : String → Bool)
    (proc : List String → ProcOutcome) (ffmpeg_bin : String) :
    ∀ r ∈ runResults files dstE proc ffmpeg_bin,
      r.status = "converted" ∨ r.status = "skipped" ∨ r.status = "failed" := by
  intro r hr
  rw [runResults, List.mem_map] at hr
  obtain ⟨src, _, rfl⟩ := hr
  exact convert_file_status_cases _ _ _ _ _

theorem length_eq_status_counts (rs : List ConversionResult)
    (h : ∀ r ∈ rs, r.status = "converted" ∨ r.status = "skipped" ∨ r.status = "failed") :
    rs.length =
      countStatus rs "converted" + countStatus rs "skipped" + countStatus rs "failed" := by
  induction rs with
  | nil => rfl
  | cons r rs ih =>
      have hr := h r (List.mem_cons_self r rs)
      have hrest := ih fun x hx => h x (List.mem_cons_of_mem r hx)
      simp only [countStatus, List.countP_cons, List.length_cons] at hrest ⊢
      rcases hr with h1 | h1 | h1 <;> rw [h1] <;> simp <;> omega

/-- C4: when the target does not exist, the outcome of `convert_file` is a
total function of the child-process result: a start failure yields `failed`
with the exception text; exit code `0` yields `converted` with empty error;
a non-zero exit yields `failed` with the stripped captured stderr as error,
or the synthesized `ffmpeg exited with code N` message when the stripped
stderr is empty — and, `convert_file` being a total Lean function into
`ConversionResult`, a non-zero exit never raises. -/
theorem convert_file_proc_outcome_cases
    (src dst ffmpeg_bin exc stdout stderr : String) (rc : Int)
    (run : List String → ProcOutcome) :
    (run (ffmpegCmd ffmpeg_bin src dst) = .raised exc →
      convert_file src dst false ffmpeg_bin run =
        { source := src, target := dst, status := "failed", error := exc }) ∧
    (run (ffmpegCmd ffmpeg_bin src dst) = .completed 0 stdout stderr →
      convert_file src dst false ffmpeg_bin run =
        { source := src, target := dst, status := "converted", error := "" }) ∧
    (run (ffmpegCmd ffmpeg_bin src dst) = .completed rc stdout stderr → rc ≠ 0 →
      (pyStrip stderr.data).isEmpty = false →
      convert_file src dst false ffmpeg_bin run =
        { source := src, target := dst, status := "failed",
          error := ⟨pyStrip stderr.data⟩ }) ∧
    (run (ffmpegCmd ffmpeg_bin src dst) = .completed rc stdout stderr → rc ≠ 0 →
      (pyStrip stderr.data).isEmpty = true →
      convert_file src dst false ffmpeg_bin run =
        { source := src, target := dst, status := "failed",
          error := "ffmpeg exited with code " ++ toString rc }) := by
  refine ⟨fun hp => ?_, fun hp => ?_, fun hp hrc hs => ?_, fun hp hrc hs => ?_⟩
  · simp [convert_file, hp]
  · simp [convert_file, hp]
  · have h0 : (rc == 0) = false := by simpa using hrc
    simp [convert_file, hp, h0, hs]
  · have h0 : (rc == 0) = false := by simpa using hrc
    simp [convert_file, hp, h0, hs]

/-- Witness for `convert_file_proc_outcome_cases` at concrete inputs, one per
child-process case. -/
theorem convert_file_proc_outcome_cases_witness :
    convert_file "a.m4a" "a.mp3" false "ffmpeg" (fun _ => .raised "No such file") =
      { source := "a.m4a", target := "a.mp3", status := "failed",
        error := "No such file" } ∧
    convert_file "a.m4a" "a.mp3" false "ffmpeg" (fun _ => .completed 0 "out" "warn") =
      { source := "a.m4a", target := "a.mp3", status := "converted", error := "" } ∧
    convert_file "a.m4a" "a.mp3" false "ffmpeg"
        (fun _ => .completed 1 "" " unsupported codec \n") =
      { source := "a.m4a", target := "a.mp3", status := "failed",
        error := "unsupported codec" } ∧
    convert_file "a.m4a" "a.mp3" false "ffmpeg" (fun _ => .completed (-9) "" "  ") =
      { source := "a.m4a", target := "a.mp3", status := "failed",
        error := "ffmpeg exited with code -9" } := by
  refine ⟨?_, ?_, ?_, ?_⟩
  · exact (convert_file_proc_outcome_cases "a.m4a" "a.mp3" "ffmpeg" "No such file" "" ""
      0 _).1 rfl
  · exact (convert_file_proc_outcome_cases "a.m4a" "a.mp3" "ffmpeg" "" "out" "warn"
      0 _).2.1 rfl
  · have h := (convert_file_proc_outcome_cases "a.m4a" "a.mp3" "ffmpeg" "" ""
      " unsupported codec \n" 1
      (fun _ => .completed 1 "" " unsupported codec \n")).2.2.1 rfl (by decide) (by decide)
    exact h.trans (by decide)
  · exact (convert_file_proc_outcome_cases "a.m4a" "a.mp3" "ffmpeg" "" "" "  "
      (-9) (fun _ => .completed (-9) "" "  ")).2.2.2 rfl (by decide) (by decide)

/-- C7: `find_ffmpeg` resolves with first-match-wins precedence.  A set,
non-empty override pointing to an existing path wins; an override that does
not exist (or is empty, hence falsy) is silently ignored and resolution
proceeds as if it were unset; otherwise a non-empty search-path result wins;
otherwise the result is the first existing entry of the fixed fallback list,
and `none` when neither fallback exists. -/
theorem find_ffmpeg_precedence (which : Option String) (ex : String → Bool)
    (e w : String) :
    (e ≠ "" → ex e = true → find_ffmpeg (some e) which ex = some e) ∧
    (ex e = false → find_ffmpeg (some e) which ex = find_ffmpeg none which ex) ∧
    (find_ffmpeg (some "") which ex = find_ffmpeg none which ex) ∧
    (w ≠ "" → find_ffmpeg none (some w) ex = some w) ∧
    (find_ffmpeg none none ex = ffmpegFallbacks.find? ex) ∧
    (ex "/opt/homebrew/bin/ffmpeg" = true →
      find_ffmpeg none none ex = some "/opt/homebrew/bin/ffmpeg") ∧
    (ex "/opt/homebrew/bin/ffmpeg" = false → ex "/usr/local/bin/ffmpeg" = true →
      find_ffmpeg none none ex = some "/usr/local/bin/ffmpeg") ∧
    (ex "/opt/homebrew/bin/ffmpeg" = false → ex "/usr/local/bin/ffmpeg" = false →
      find_ffmpeg none none ex = none) := by
  refine ⟨fun hne hex => ?_, fun hex => ?_, ?_, fun hne => ?_, rfl,
    fun h1 => ?_, fun h1 h2 => ?_, fun h1 h2 => ?_⟩
  · have : (e == "") = false := by simpa using hne
    simp [find_ffmpeg, pyTruthyStr, this, hex]
  · simp [find_ffmpeg, pyTruthyStr, hex]
  · simp [find_ffmpeg, pyTruthyStr]
  · have : (w == "") = false := by simpa using hne
    simp [find_ffmpeg, pyTruthyStr, this]
  · simp [find_ffmpeg, pyTruthyStr, ffmpegFallbacks, List.find?, h1]
  · simp [find_ffmpeg, pyTruthyStr, ffmpegFallbacks, List.find?, h1, h2]
  · simp [find_ffmpeg, pyTruthyStr, ffmpegFallbacks, List.find?, h1, h2]

/-- Witness for `find_ffmpeg_precedence` at concrete inputs: an existing
override beats an available search-path result; a non-existing override is
ignored in favor of the search-path result; with neither, the first existing
fallback is chosen; with nothing available the result is `none`. -/
theorem find_ffmpeg_precedence_witness :
    find_ffmpeg (some "/custom/ffmpeg") (some "/usr/bin/ffmpeg")
      (fun s => s == "/custom/ffmpeg") = some "/custom/ffmpeg" ∧
    find_ffmpeg (some "/custom/ffmpeg") (some "/usr/bin/ffmpeg") (fun _ => false) =
      find_ffmpeg none (some "/usr/bin/ffmpeg") (fun _ => false) ∧
    find_ffmpeg none (some "/usr/bin/ffmpeg") (fun _ => false) = some "/usr/bin/ffmpeg" ∧
    find_ffmpeg none none (fun s => s == "/usr/local/bin/ffmpeg") =
      some "/usr/local/bin/ffmpeg" ∧
    find_ffmpeg none none (fun _ => false) = none := by
  refine ⟨?_, ?_, ?_, ?_, ?_⟩
  · exact (find_ffmpeg_precedence (some "/usr/bin/ffmpeg")
      (fun s => s == "/custom/ffmpeg") "/custom/ffmpeg" "w").1 (by decide) (by decide)
  · exact (find_ffmpeg_precedence (some "/usr/bin/ffmpeg") (fun _ => false)
      "/custom/ffmpeg" "w").2.1 rfl
  · exact (find_ffmpeg_precedence (some "/usr/bin/ffmpeg") (fun _ => false)
      "e" "/usr/bin/ffmpeg").2.2.2.1 (by decide)
  · exact (find_ffmpeg_precedence none (fun s => s == "/usr/local/bin/ffmpeg")
      "e" "w").2.2.2.2.2.2.1 (by decide) (by decide)
  · exact (find_ffmpeg_precedence none (fun _ => false) "e" "w").2.2.2.2.2.2.2 rfl rfl

/-- C2 counterexample: not every form of corruption is recovered.  A history
file whose content is valid JSON but not an object (here the JSON array
`[]`) makes `write_json_report` raise `AttributeError` after a successful
parse, and an unreadable history file propagates the read error: in both
cases the new run record is lost rather than appended. -/
theorem write_json_report_corrupt_store_raises :
    write_json_report (.parsed (Json.arr [])) (Json.str "new-run") =
      .error "AttributeError: setdefault" ∧
    write_json_report .unreadable (Json.str "new-run") = .error "read_text raised" :=
  ⟨rfl, rfl⟩

/-- C2 (amended): the recovery path covers exactly the corruption that
`json.loads` rejects (`JSONDecodeError`): such content, like a missing file,
is treated as the empty history, reinitialized, and the new run is appended.
Content that parses to a non-object JSON value raises `AttributeError`
instead, and a file whose read itself fails propagates that error — in both
of those cases the new run is lost. -/
theorem write_json_report_recovery (p : Json) :
    write_json_report .undecodable p = .ok (Json.obj [("runs", Json.arr [p])]) ∧
    write_json_report .absent p = .ok (Json.obj [("runs", Json.arr [p])]) ∧
    write_json_report .unreadable p = .error "read_text raised" ∧
    (∀ v : Json, (∀ entries, v ≠ Json.obj entries) →
      write_json_report (.parsed v) p = .error "AttributeError: setdefault") := by
  refine ⟨rfl, rfl, rfl, fun v hv => ?_⟩
  cases v with
  | obj entries => exact absurd rfl (hv entries)
  | null => rfl
  | bool b => rfl
  | num n => rfl
  | str s => rfl
  | arr elems => rfl

/-- Witness for `write_json_report_recovery`: undecodable content is replaced
by a fresh history holding just the new run, and a parsed non-object raises. -/
theorem write_json_report_recovery_witness :
    write_json_report .undecodable (Json.str "run-1") =
      .ok (Json.obj [("runs", Json.arr [Json.str "run-1"])]) ∧
    write_json_report (.parsed (Json.num 3)) (Json.str "run-1") =
      .error "AttributeError: setdefault" :=
  ⟨(write_json_report_recovery (Json.str "run-1")).1,
    (write_json_report_recovery (Json.str "run-1")).2.2.2 (Json.num 3)
      (fun entries h => by cases h)⟩

theorem objGet_objSet_present (entries : List (String × Json)) (k : String) (v w : Json)
    (h : objGet entries k = some w) :
    objGet (objSet entries k v) k = some v := by
  induction entries with
  | nil => simp [objGet, List.find?] at h
  | cons kv rest ih =>
      cases hk : (kv.1 == k) with
      | true =>
          have hk' : kv.1 = k := by simpa using hk
          simp [objGet, objSet, List.find?, hk, hk']
      | false =>
          have h' : objGet rest k = some w := by
            simpa [objGet, List.find?, hk] using h
          simpa [objGet, objSet, List.find?, hk] using ih h'

theorem filter_objSet (entries : List (String × Json)) (k : String) (v : Json) :
    (objSet entries k v).filter (fun kv => !(kv.1 == k)) =
      entries.filter (fun kv => !(kv.1 == k)) := by
  induction entries with
  | nil => rfl
  | cons kv rest ih =>
      cases hk : (kv.1 == k) with
      | true => simpa [objSet, List.filter, hk] using ih
      | false => simpa [objSet, List.filter, hk] using ih

theorem writeRunsFrom_runs (ps : List Json) : ∀ rs : List Json,
    writeRunsFrom (Json.obj [("runs", Json.arr rs)]) ps =
      .ok (Json.obj [("runs", Json.arr (rs ++ ps))]) := by
  induction ps with
  | nil => intro rs; simp [writeRunsFrom]
  | cons p ps ih =>
      intro rs
      have hstep : ((Except.ok (Json.obj [("runs", Json.arr rs)]) : Except String Json).bind
          fun v => write_json_report (.parsed v) p) =
          .ok (Json.obj [("runs", Json.arr (rs ++ [p]))]) := rfl
      have hfold := ih (rs ++ [p])
      simp only [writeRunsFrom] at hfold ⊢
      rw [List.foldl_cons, hstep, hfold, List.append_assoc]
      rfl

/-- C9: the history store is append-only.  On a well-formed history (an
object whose `"runs"` member is an array of K records), `write_json_report`
writes back the same object with the `"runs"` array extended by exactly the
new record — the K prior records are unchanged, in their original order, as
the literal prefix `runs ++ [p]` — and starting from a missing store, a
sequence of N appends yields a store holding exactly those N records in
chronological order (the first write, on an absent file, equals a write over
the reinitialized empty history). -/
theorem history_append_only (entries : List (String × Json)) (runs : List Json)
    (p : Json) (ps : List Json)
    (h : objGet entries "runs" = some (Json.arr runs)) :
    write_json_report (.parsed (.obj entries)) p =
      .ok (.obj (objSet entries "runs" (Json.arr (runs ++ [p])))) ∧
    objGet (objSet entries "runs" (Json.arr (runs ++ [p]))) "runs" =
      some (Json.arr (runs ++ [p])) ∧
    writeRunsFrom emptyHistory ps = .ok (Json.obj [("runs", Json.arr ps)]) ∧
    write_json_report .absent p = write_json_report (.parsed emptyHistory) p := by
  refine ⟨?_, ?_, ?_, rfl⟩
  · simp [write_json_report, h]
  · exact objGet_objSet_present entries "runs" _ _ h
  · simpa [emptyHistory] using writeRunsFrom_runs ps []

/-- Witness for `history_append_only`: appending run 2 to a history holding
run 1 keeps run 1 first and unchanged, and two successive runs from an empty
store leave exactly those two records in order. -/
theorem history_append_only_witness :
    write_json_report (.parsed (.obj [("runs", Json.arr [Json.num 1])])) (Json.num 2) =
      .ok (.obj [("runs", Json.arr [Json.num 1, Json.num 2])]) ∧
    writeRunsFrom emptyHistory [Json.num 1, Json.num 2] =
      .ok (Json.obj [("runs", Json.arr [Json.num 1, Json.num 2])]) := by
  have h := history_append_only [("runs", Json.arr [Json.num 1])] [Json.num 1]
    (Json.num 2) [Json.num 1, Json.num 2] rfl
  exact ⟨h.1, h.2.2.1⟩

/-- C10 counterexample: an existing history file that parses as a JSON object
is not always preserved-and-extended — when its `"runs"` member is present
but not an array, `write_json_report` raises `AttributeError` and writes
nothing back, so no written-back file preserves the other keys and no run is
appended. -/
theorem write_json_report_nonlist_runs_raises :
    write_json_report
        (.parsed (.obj [("runs", Json.num 0), ("alpha", Json.str "v")])) (Json.num 7) =
      .error "AttributeError: append" := rfl

/-- C10 (amended): for every existing history file that parses as a JSON
object whose `"runs"` member, if present, is an array, `write_json_report`
preserves every top-level entry other than `"runs"` unchanged and in order
in the written-back object, and when the object has no `"runs"` key it
appends one holding only the new run record instead of failing.  When
`"runs"` is present but not an array the write raises instead and nothing
is written back. -/
theorem write_json_report_object_frame (entries : List (String × Json)) (p : Json)
    (runs : List Json) :
    (objGet entries "runs" = none →
      write_json_report (.parsed (.obj entries)) p =
        .ok (.obj (entries ++ [("runs", Json.arr [p])]))) ∧
    (objGet entries "runs" = some (Json.arr runs) →
      write_json_report (.parsed (.obj entries)) p =
        .ok (.obj (objSet entries "runs" (Json.arr (runs ++ [p])))) ∧
      (objSet entries "runs" (Json.arr (runs ++ [p]))).filter
          (fun kv => !(kv.1 == "runs")) =
        entries.filter (fun kv => !(kv.1 == "runs"))) ∧
    (∀ j : Json, objGet entries "runs" = some j → (∀ l, j ≠ Json.arr l) →
      write_json_report (.parsed (.obj entries)) p = .error "AttributeError: append") := by
  refine ⟨fun h => ?_, fun h => ⟨?_, filter_objSet entries "runs" _⟩, fun j hj hne => ?_⟩
  · simp [write_json_report, h]
  · simp [write_json_report, h]
  · cases j with
    | arr l => exact absurd rfl (hne l)
    | null => simp [write_json_report, hj]
    | bool b => simp [write_json_report, hj]
    | num n => simp [write_json_report, hj]
    | str s => simp [write_json_report, hj]
    | obj o => simp [write_json_report, hj]

/-- Witness for `write_json_report_object_frame`: an object without `"runs"`
gains one holding only the new record while its other key survives, and an
object with a `"runs"` array keeps its other key unchanged. -/
theorem write_json_report_object_frame_witness :
    write_json_report (.parsed (.obj [("alpha", Json.str "v")])) (Json.num 7) =
      .ok (.obj [("alpha", Json.str "v"), ("runs", Json.arr [Json.num 7])]) ∧
    write_json_report
        (.parsed (.obj [("alpha", Json.str "v"), ("runs", Json.arr [Json.num 1])]))
        (Json.num 7) =
      .ok (.obj [("alpha", Json.str "v"), ("runs", Json.arr [Json.num 1, Json.num 7])]) ∧
    (objSet [("alpha", Json.str "v"), ("runs", Json.arr [Json.num 1])] "runs"
        (Json.arr ([Json.num 1] ++ [Json.num 7]))).filter
        (fun kv => !(kv.1 == "runs")) =
      [("alpha", Json.str "v")] := by
  have h1 := (write_json_report_object_frame [("alpha", Json.str "v")] (Json.num 7) []).1 rfl
  have h2 := (write_json_report_object_frame
    [("alpha", Json.str "v"), ("runs", Json.arr [Json.num 1])] (Json.num 7)
    [Json.num 1]).2.1 rfl
  exact ⟨h1, h2.1, h2.2.trans rfl⟩

/-- C3: when the target already exists, `convert_file` returns `skipped` with
error detail `target_exists`; its result does not depend on the child-process
oracle at all (the tool is never invoked); and a run in which every queried
target exists — in particular a rerun after a completed run, where every
previously converted or skipped target is present and every failure repeats
deterministically — produces zero `converted` outcomes. -/
theorem convert_file_target_exists_skips
    (src dst ffmpeg_bin bin : String) (run run₂ proc : List String → ProcOutcome)
    (files : List FsPath) (dstE dstE₂ : String → Bool) :
    convert_file src dst true ffmpeg_bin run =
      { source := src, target := dst, status := "skipped", error := "target_exists" } ∧
    convert_file src dst true ffmpeg_bin run = convert_file src dst true ffmpeg_bin run₂ ∧
    ((∀ d, dstE₂ d = (dstE d ||
        (runResults files dstE proc bin).any fun r =>
          r.target == d && r.status == "converted")) →
      countStatus (runResults files dstE₂ proc bin) "converted" = 0) := by
  refine ⟨rfl, rfl, fun h => ?_⟩
  rw [countStatus, List.countP_eq_zero]
  intro r hr
  rw [runResults, List.mem_map] at hr
  obtain ⟨src', hsrc', rfl⟩ := hr
  set dst' := pathToString (withSuffixMp3 src') with hdst'
  cases hd : dstE₂ dst' with
  | true => simp [convert_file, hd]
  | false =>
      have h2 := (h dst').symm.trans hd
      rw [Bool.or_eq_false_iff] at h2
      obtain ⟨hdE, hany⟩ := h2
      rw [List.any_eq_false] at hany
      have hmem1 : convert_file (pathToString src') dst' (dstE dst') bin proc ∈
          runResults files dstE proc bin := by
        rw [runResults]
        exact List.mem_map_of_mem _ hsrc'
      have hnc := hany _ hmem1
      rw [convert_file_target] at hnc
      cases hp : proc (ffmpegCmd bin (pathToString src') dst') with
      | raised e => simp [convert_file, hd, hp]
      | completed rc out err =>
          cases h0 : (rc == 0) with
          | true =>
              exfalso
              apply hnc
              simp [convert_file, hdE, hp, h0]
          | false => simp [convert_file, hd, hp, h0]

/-- Witness for `convert_file_target_exists_skips`: a rerun over a filesystem
in which the first run's lone conversion left its target behind yields zero
`converted` outcomes. -/
theorem convert_file_target_exists_skips_witness :
    countStatus
      (runResults [["a.m4a"]]
        (fun d => ((fun _ => false) d ||
          (runResults [["a.m4a"]] (fun _ => false)
              (fun _ => ProcOutcome.completed 0 "" "") "ffmpeg").any fun r =>
            r.target == d && r.status == "converted"))
        (fun _ => ProcOutcome.completed 0 "" "") "ffmpeg") "converted" = 0 :=
  (convert_file_target_exists_skips "s" "d" "b" "ffmpeg"
    (fun _ => ProcOutcome.raised "x") (fun _ => ProcOutcome.raised "x")
    (fun _ => ProcOutcome.completed 0 "" "") [["a.m4a"]] (fun _ => false)
    (fun d => ((fun _ => false) d ||
      (runResults [["a.m4a"]] (fun _ => false)
          (fun _ => ProcOutcome.completed 0 "" "") "ffmpeg").any fun r =>
        r.target == d && r.status == "converted"))).2.2 (fun _ => rfl)

/-- C1: every result produced by `convert_file` carries exactly one of the
three statuses `converted` / `skipped` / `failed`, and in every completed run
the recorded totals satisfy `found_m4a = converted + skipped + failed` — each
discovered file is counted exactly once. -/
theorem totals_partition
    (src dst ffmpeg_bin : String) (d : Bool) (run : List String → ProcOutcome)
    (e : MainEnv) (code : Int) (payload : RunPayload) (rows : List ConversionResult)
    (h : main e = (code, some (payload, rows))) :
    (((convert_file src dst d ffmpeg_bin run).status = "converted" ∧
        (convert_file src dst d ffmpeg_bin run).status ≠ "skipped" ∧
        (convert_file src dst d ffmpeg_bin run).status ≠ "failed") ∨
      ((convert_file src dst d ffmpeg_bin run).status = "skipped" ∧
        (convert_file src dst d ffmpeg_bin run).status ≠ "converted" ∧
        (convert_file src dst d ffmpeg_bin run).status ≠ "failed") ∨
      ((convert_file src dst d ffmpeg_bin run).status = "failed" ∧
        (convert_file src dst d ffmpeg_bin run).status ≠ "converted" ∧
        (convert_file src dst d ffmpeg_bin run).status ≠ "skipped")) ∧
    payload.totals.found_m4a =
      payload.totals.converted + payload.totals.skipped + payload.totals.failed := by
  constructor
  · rcases convert_file_status_cases src dst ffmpeg_bin d run with h1 | h1 | h1
    · exact Or.inl ⟨h1, by rw [h1]; decide, by rw [h1]; decide⟩
    · exact Or.inr (Or.inl ⟨h1, by rw [h1]; decide, by rw [h1]; decide⟩)
    · exact Or.inr (Or.inr ⟨h1, by rw [h1]; decide, by rw [h1]; decide⟩)
  · unfold main at h
    cases hb : (e.inputDirExists && e.inputDirIsDir) with
    | false => rw [hb] at h; simp at h
    | true =>
        rw [hb] at h
        cases hf : find_ffmpeg e.ffmpegEnv e.whichFfmpeg e.toolPathExists with
        | none => rw [hf] at h; simp at h
        | some ffmpeg_bin' =>
            rw [hf] at h
            simp only [Bool.not_true, Bool.false_eq_true, if_false,
              Prod.mk.injEq, Option.some.injEq] at h
            obtain ⟨-, hpay, -⟩ := h
            subst hpay
            exact length_eq_status_counts _
              (runResults_status_cases e.files e.dstFileExists e.runProc ffmpeg_bin')

/-- Witness for `totals_partition`: a completed run over one source file that
converts. -/
theorem totals_partition_witness :
    ({ found_m4a := 1, converted := 1, skipped := 0, failed := 0 } : RunTotals).found_m4a =
      ({ found_m4a := 1, converted := 1, skipped := 0, failed := 0 } : RunTotals).converted +
      ({ found_m4a := 1, converted := 1, skipped := 0, failed := 0 } : RunTotals).skipped +
      ({ found_m4a := 1, converted := 1, skipped := 0, failed := 0 } : RunTotals).failed :=
  (totals_partition "s" "d" "b" true (fun _ => ProcOutcome.raised "x") envCleanRun
    0
    { timestamp_utc := "t", input_dir := "data/train",
      totals := { found_m4a := 1, converted := 1, skipped := 0, failed := 0 },
      results := [{ source := "a.m4a", target := "a.mp3", status := "converted",
                    error := "" }] }
    [{ source := "a.m4a", target := "a.mp3", status := "converted", error := "" }]
    (by decide)).2

/-- C5: the process exit status of `main` is exactly 1 when a precondition
fails (input directory missing or not a directory, or the tool unresolvable),
exactly 0 when the run completes with zero `failed` outcomes, and exactly 2
when the run completes with at least one `failed` outcome. -/
theorem exit_code_policy (e : MainEnv) (ffmpeg_bin : String) :
    ((e.inputDirExists && e.inputDirIsDir) = false → (main e).1 = 1) ∧
    (find_ffmpeg e.ffmpegEnv e.whichFfmpeg e.toolPathExists = none → (main e).1 = 1) ∧
    ((e.inputDirExists && e.inputDirIsDir) = true →
      find_ffmpeg e.ffmpegEnv e.whichFfmpeg e.toolPathExists = some ffmpeg_bin →
      ((countStatus (runResults e.files e.dstFileExists e.runProc ffmpeg_bin)
          "failed" = 0 → (main e).1 = 0) ∧
        (countStatus (runResults e.files e.dstFileExists e.runProc ffmpeg_bin)
          "failed" ≠ 0 → (main e).1 = 2))) := by
  refine ⟨fun hb => ?_, fun hf => ?_, fun hb hf => ⟨fun hc => ?_, fun hc => ?_⟩⟩
  · unfold main
    rw [hb]
    rfl
  · unfold main
    cases hb : (e.inputDirExists && e.inputDirIsDir) with
    | false => rfl
    | true => rw [hf]; rfl
  · unfold main
    rw [hb, hf]
    have : (countStatus (runResults e.files e.dstFileExists e.runProc ffmpeg_bin)
        "failed" == 0) = true := by simpa using hc
    simp [this]
  · unfold main
    rw [hb, hf]
    have : (countStatus (runResults e.files e.dstFileExists e.runProc ffmpeg_bin)
        "failed" == 0) = false := by simpa using hc
    simp [this]

/-- Witness for `exit_code_policy` at concrete environments: a missing input
directory exits 1, an unresolvable tool exits 1, a clean run exits 0, and a
run with one failure exits 2. -/
theorem exit_code_policy_witness :
    (main envMissingDir).1 = 1 ∧
    (main envNoTool).1 = 1 ∧
    (main envCleanRun).1 = 0 ∧
    (main envOneFailure).1 = 2 := by
  refine ⟨?_, ?_, ?_, ?_⟩
  · exact (exit_code_policy envMissingDir "b").1 rfl
  · exact (exit_code_policy envNoTool "b").2.1 rfl
  · exact ((exit_code_policy envCleanRun "/usr/bin/ffmpeg").2.2 rfl rfl).1 (by decide)
  · exact ((exit_code_policy envOneFailure "/usr/bin/ffmpeg").2.2 rfl rfl).2 (by decide)

/-- C6: when a precondition fails — the input directory is missing or not a
directory, or the tool is unresolvable — `main` returns exit status 1 and
produces no artifacts: no conversion runs, no run payload (RunRecord) is
built, and neither the history store nor the snapshot store is written
(`none` in the model's written-artifacts component). -/
theorem precondition_failure_writes_nothing (e : MainEnv)
    (h : (e.inputDirExists && e.inputDirIsDir) = false ∨
      find_ffmpeg e.ffmpegEnv e.whichFfmpeg e.toolPathExists = none) :
    main e = (1, none) := by
  unfold main
  rcases h with hb | hf
  · rw [hb]
    rfl
  · cases hb : (e.inputDirExists && e.inputDirIsDir) with
    | false => rfl
    | true => rw [hf]; rfl

/-- Witness for `precondition_failure_writes_nothing`: a run against a
missing input directory, and a run with no resolvable tool, write nothing. -/
theorem precondition_failure_writes_nothing_witness :
    main envMissingDir = (1, none) ∧ main envNoTool = (1, none) :=
  ⟨precondition_failure_writes_nothing envMissingDir (Or.inl rfl),
    precondition_failure_writes_nothing envNoTool (Or.inr rfl)⟩

theorem take_four_destruct {α : Type} (l : List α) (a b c d : α)
    (h : l.take 4 = [a, b, c, d]) : ∃ rest, l = a :: b :: c :: d :: rest := by
  match l with
  | [] => simp at h
  | [x1] => simp [List.take] at h
  | [x1, x2] => simp [List.take] at h
  | [x1, x2, x3] => simp [List.take] at h
  | x1 :: x2 :: x3 :: x4 :: rest =>
      simp [List.take] at h
      obtain ⟨rfl, rfl, rfl, rfl⟩ := h
      exact ⟨rest, rfl⟩

theorem pyWithSuffixMp3_eq_specTarget (name : String)
    (h : endsWithM4a name.data = true) (hne : name ≠ ".m4a") :
    pyWithSuffixMp3 name = specTargetName name := by
  have h4 : name.data.reverse.take 4 = ['a', '4', 'm', '.'] := by
    simpa [endsWithM4a] using h
  obtain ⟨rest, hrev⟩ := take_four_destruct _ _ _ _ _ h4
  have hdata : name.data = rest.reverse ++ ['.', 'm', '4', 'a'] := by
    have := congrArg List.reverse hrev
    simpa using this
  have hrestne : rest ≠ [] := by
    intro h0
    subst h0
    apply hne
    apply String.ext
    simpa using hdata
  have hlen : name.data.length = rest.length + 4 := by
    rw [hdata]
    simp
  have hpos : 0 < rest.length := List.length_pos.mpr hrestne
  show (⟨pyWithSuffixMp3Chars name.data⟩ : String) = specTargetName name
  rw [specTargetName]
  congr 1
  rw [pyWithSuffixMp3Chars, hrev]
  have ea : (('a' : Char) == '.') = false := by decide
  have e4 : (('4' : Char) == '.') = false := by decide
  have em : (('m' : Char) == '.') = false := by decide
  have ed : (('.' : Char) == '.') = true := by decide
  rw [List.findIdx?_cons]
  rw [ea, if_neg (by simp), List.findIdx?_cons, e4, if_neg (by simp),
    List.findIdx?_cons, em, if_neg (by simp), List.findIdx?_cons, ed, if_pos rfl]
  rw [show (0 + 1 + 1 + 1 : Nat) = 3 from rfl]
  show (if 0 < 3 ∧ 3 < name.data.length - 1 then
      List.take (name.data.length - (3 + 1)) name.data ++ ".mp3".data
    else name.data ++ ".mp3".data) =
    List.take (name.data.length - 4) name.data ++ ".mp3".data
  rw [if_pos ⟨by norm_num, by omega⟩]

/-- C8 counterexample: the derived target is not always the source path with
its extension replaced.  A file named exactly `.m4a` is discovered (its name
matches `*.m4a`, and pathlib's wildcard matching does not skip dotfiles), but
CPython's `with_suffix` treats a leading dot as part of the stem — the name
has no suffix — so `.mp3` is appended rather than substituted: the code
derives target `.m4a.mp3` where the spec's wording demands `.mp3`. -/
theorem dotfile_target_not_extension_replacement :
    (runResults [[".m4a"]] (fun _ => false) (fun _ => ProcOutcome.completed 0 "" "")
        "ffmpeg").map (fun r => r.target) = [".m4a.mp3"] ∧
    pathToString (specTargetPath [".m4a"]) = ".mp3" ∧
    (".m4a.mp3" : String) ≠ ".mp3" :=
  ⟨by decide, by decide, by decide⟩

/-- C8 (amended): the orchestrator discovers exactly the files under the
input root whose name matches `*.m4a` case-sensitively, processes each
exactly once in lexicographic-by-path sorted order, and derives each file's
target path with `with_suffix(".mp3")`: for every discovered file except one
named exactly `.m4a` this is the source path with its `.m4a` extension
replaced by `.mp3`; for a file named exactly `.m4a` (no suffix under
pathlib's rules) the target extension is appended instead, giving
`.m4a.mp3`. -/
theorem discovery_sorted_and_targets (files : List FsPath) (dstE : String → Bool)
    (proc : List String → ProcOutcome) (bin : String) (p : FsPath)
    (hnd : files.Nodup) :
    (discoverSources files).Perm
      (files.filter fun q => endsWithM4a (pathName q).data) ∧
    (discoverSources files).Nodup ∧
    List.Sorted pathLe (discoverSources files) ∧
    (runResults files dstE proc bin).map (fun r => r.source) =
      (discoverSources files).map pathToString ∧
    (runResults files dstE proc bin).map (fun r => r.target) =
      (discoverSources files).map (fun q => pathToString (withSuffixMp3 q)) ∧
    (endsWithM4a (pathName p).data = true → pathName p ≠ ".m4a" →
      withSuffixMp3 p = specTargetPath p) ∧
    (pathName p = ".m4a" → withSuffixMp3 p = p.dropLast ++ [".m4a.mp3"]) := by
  refine ⟨List.perm_insertionSort pathLe _,
    (List.perm_insertionSort pathLe _).nodup_iff.mpr (hnd.filter _),
    List.sorted_insertionSort pathLe _, ?_, ?_, fun h hne => ?_, fun h => ?_⟩
  · rw [runResults, List.map_map]
    exact List.map_congr_left fun src _ => convert_file_source _ _ _ _ _
  · rw [runResults, List.map_map]
    exact List.map_congr_left fun src _ => convert_file_target _ _ _ _ _
  · rw [withSuffixMp3, specTargetPath, pyWithSuffixMp3_eq_specTarget _ h hne]
  · rw [withSuffixMp3, h]
    congr 1

/-- Witness for `discovery_sorted_and_targets` on a concrete filesystem:
discovery filters and sorts the `.m4a` files, and a multi-dot name has only
its final extension replaced. -/
theorem discovery_sorted_and_targets_witness :
    (discoverSources [["b.m4a"], ["sub", "c.m4a"], ["a.m4a"], ["x.txt"]]).Perm
      ([["b.m4a"], ["sub", "c.m4a"], ["a.m4a"], ["x.txt"]].filter fun q =>
        endsWithM4a (pathName q).data) ∧
    List.Sorted pathLe
      (discoverSources [["b.m4a"], ["sub", "c.m4a"], ["a.m4a"], ["x.txt"]]) ∧
    withSuffixMp3 ["song.tar.m4a"] = specTargetPath ["song.tar.m4a"] := by
  have h := discovery_sorted_and_targets
    [["b.m4a"], ["sub", "c.m4a"], ["a.m4a"], ["x.txt"]] (fun _ => false)
    (fun _ => ProcOutcome.completed 0 "" "") "ffmpeg" ["song.tar.m4a"] (by decide)
  exact ⟨h.1, h.2.2.1, h.2.2.2.2.2.1 (by decide) (by decide)⟩

end BarkDetector
